import Mathlib

/-!
Shallow embedding of the Terminal-Bench platform backend
(`backend/harbor_runner.py`, `backend/celery_worker.py`, `backend/main.py`,
data model from `backend/database.py`), together with theorems settling the
specification claims about it.

Conventions:
* Python values that flow through `json.load` / `dict.get` are modelled by
  the inductive `PyVal` (`None`, booleans, ints, floats-as-rationals,
  strings, lists, dicts).
* The filesystem trees the runner leaves behind are modelled by `FsEntry`
  (a file with string content, or a directory with a named entry list).
* Fallible Python code is modelled with `Except PyErr`; an uncaught Python
  exception is `Except.error`.
* Wall-clock instants are opaque `Nat` parameters.
-/

/-- A Python runtime value, as produced by `json.load` and consumed by the
parsers in `harbor_runner.py`.  Floats are modelled as rationals. -/
inductive PyVal where
  | none
  | bool (b : Bool)
  | int (n : Int)
  | float (q : Rat)
  | str (s : String)
  | list (xs : List PyVal)
  | dict (kvs : List (String × PyVal))

/-- Association-list lookup, i.e. Python `dict[key]` presence/value.
(Python dicts have unique keys; first match is the binding.) -/
def kvLookup (kvs : List (String × PyVal)) (k : String) : Option PyVal :=
  match kvs with
  | [] => Option.none
  | (k', v) :: rest => if k' = k then some v else kvLookup rest k

/-- A Python exception escaping some code.  The payload is `str(e)`. -/
inductive PyErr where
  | valueError (msg : String)
  | attributeError (msg : String)
  | typeError (msg : String)
  | notADirectoryError (msg : String)
  | isADirectoryError (msg : String)

/-- `str(e)` of a modelled Python exception. -/
def PyErr.msg : PyErr → String
  | .valueError m => m
  | .attributeError m => m
  | .typeError m => m
  | .notADirectoryError m => m
  | .isADirectoryError m => m

/-- Python `test.get(key, default)` on a value expected to be a dict:
returns the stored value when the key is present (even when that value is
`None`), the default when absent, and raises `AttributeError` when the
receiver is not a dict. -/
def pyGetD (v : PyVal) (k : String) (d : PyVal) : Except PyErr PyVal :=
  match v with
  | .dict kvs => .ok ((kvLookup kvs k).getD d)
  | _ => .error (.attributeError ("object has no attribute get: " ++ k))

/-- Python `test.get(key)` (no default, i.e. default `None`). -/
def pyGet (v : PyVal) (k : String) : Except PyErr PyVal :=
  pyGetD v k .none

/-- Characters Python treats as whitespace for `str.strip()` / `int()` /
`float()` (the ASCII fragment; the full Unicode set is not needed by any
content this backend produces). -/
def isPyWs (c : Char) : Bool :=
  c = ' ' || c = '\t' || c = '\n' || c = '\r' || c = '\x0b' || c = '\x0c'

/-- Python `s.strip()` (ASCII-whitespace fragment). -/
def pyStrip (s : String) : String :=
  String.mk ((s.data.dropWhile isPyWs).reverse.dropWhile isPyWs |>.reverse)

/-- Digit list to natural number (decimal). -/
def digitsToNat (cs : List Char) : Nat :=
  cs.foldl (fun acc c => acc * 10 + (c.toNat - '0'.toNat)) 0

/-- Is `pre` a prefix of `cs` (character-wise)? -/
def listPrefixB : List Char → List Char → Bool
  | [], _ => true
  | _ :: _, [] => false
  | p :: ps, c :: cs => (p.toNat == c.toNat) && listPrefixB ps cs

/-- Python `s.startswith(pre)` (code-point-wise prefix test). -/
def pyStartsWith (s pre : String) : Bool :=
  listPrefixB pre.data s.data

/-- Lexicographic code-point comparison of character lists: exactly how
Python compares strings (and how `pathlib` paths of common parent
compare). -/
def charsLtb : List Char → List Char → Bool
  | [], [] => false
  | [], _ :: _ => true
  | _ :: _, [] => false
  | a :: as, b :: bs =>
    if a.toNat == b.toNat then charsLtb as bs else Nat.blt a.toNat b.toNat

/-- Python `a < b` on strings. -/
def strLtb (a b : String) : Bool :=
  charsLtb a.data b.data

/-- Python `s.split(sep)` for a one-character separator: splits at every
occurrence, keeping empty fields. -/
def pySplitChar (sep : Char) : List Char → List (List Char)
  | [] => [[]]
  | c :: rest =>
    if c.toNat == sep.toNat then [] :: pySplitChar sep rest
    else
      match pySplitChar sep rest with
      | h :: t => (c :: h) :: t
      | [] => [[c]]

/-- Python `s.split(sep)` as strings. -/
def pySplit (s : String) (sep : Char) : List String :=
  (pySplitChar sep s.data).map (fun l => String.mk l)

/-- Python `int(s)`: strip whitespace, optional sign, then one or more
decimal digits; anything else raises `ValueError` (modelled as `Option.none`).
(Underscore digit grouping is not modelled; the runner names episode
directories `episode-<digits>`.) -/
def pyInt? (s : String) : Option Int :=
  let cs := pyStrip s |>.data
  let (sign, cs) : Int × List Char :=
    match cs with
    | '-' :: rest => (-1, rest)
    | '+' :: rest => (1, rest)
    | _ => (1, cs)
  if cs ≠ [] ∧ cs.all (·.isDigit) then
    some (sign * (digitsToNat cs : Int))
  else
    Option.none

/-- Python `float(s)` on decimal literals: strip whitespace, optional sign,
digits with optional fractional part and optional decimal exponent.
`inf`/`nan` literals are not representable in `Rat` and are not modelled;
no content in this system produces them. Failure (`ValueError`) is
`Option.none`. -/
def pyFloat? (s : String) : Option Rat :=
  let cs := pyStrip s |>.data
  let (neg, cs) : Bool × List Char :=
    match cs with
    | '-' :: rest => (true, rest)
    | '+' :: rest => (false, rest)
    | _ => (false, cs)
  let intPart := cs.takeWhile (·.isDigit)
  let cs := cs.dropWhile (·.isDigit)
  let (fracPart, cs) : List Char × List Char :=
    match cs with
    | '.' :: rest => (rest.takeWhile (·.isDigit), rest.dropWhile (·.isDigit))
    | _ => ([], cs)
  -- at least one digit must appear in the mantissa
  if intPart = [] ∧ fracPart = [] then Option.none else
  -- the literal's value is digits(int ++ frac) / 10^|frac|, scaled by the exponent
  let m : Int := (digitsToNat (intPart ++ fracPart) : Int)
  let m : Int := if neg then -m else m
  match cs with
  | [] => some (mkRat m (10 ^ fracPart.length))
  | 'e' :: rest | 'E' :: rest =>
    let (esign, rest) : Bool × List Char :=
      match rest with
      | '-' :: r => (true, r)
      | '+' :: r => (false, r)
      | _ => (false, rest)
    if rest ≠ [] ∧ rest.all (·.isDigit) then
      let e := digitsToNat rest
      some (if esign then mkRat m (10 ^ (fracPart.length + e))
            else mkRat (m * (10 : Int) ^ e) (10 ^ fracPart.length))
    else Option.none
  | _ => Option.none

/-! ### JSON (`json.load` / `json.dumps`) -/

/-- Skip JSON insignificant whitespace. -/
def jsonSkipWs (cs : List Char) : List Char :=
  cs.dropWhile (fun c => c = ' ' || c = '\t' || c = '\n' || c = '\r')

/-- Hex digit value, if any. -/
def hexVal? (c : Char) : Option Nat :=
  if c.isDigit then some (c.toNat - '0'.toNat)
  else if 'a' ≤ c ∧ c ≤ 'f' then some (c.toNat - 'a'.toNat + 10)
  else if 'A' ≤ c ∧ c ≤ 'F' then some (c.toNat - 'A'.toNat + 10)
  else Option.none

/-- Parse the body of a JSON string literal (opening quote already
consumed), accumulating characters; handles the JSON escapes. -/
def parseJStr (acc : List Char) : List Char → Option (String × List Char)
  | [] => Option.none
  | '"' :: rest => some (String.mk acc.reverse, rest)
  | '\\' :: e :: rest =>
    match e with
    | '"' => parseJStr ('"' :: acc) rest
    | '\\' => parseJStr ('\\' :: acc) rest
    | '/' => parseJStr ('/' :: acc) rest
    | 'n' => parseJStr ('\n' :: acc) rest
    | 't' => parseJStr ('\t' :: acc) rest
    | 'r' => parseJStr ('\r' :: acc) rest
    | 'b' => parseJStr ('\x08' :: acc) rest
    | 'f' => parseJStr ('\x0c' :: acc) rest
    | 'u' =>
      match rest with
      | h1 :: h2 :: h3 :: h4 :: rest' =>
        match hexVal? h1, hexVal? h2, hexVal? h3, hexVal? h4 with
        | some a, some b, some c, some d =>
          parseJStr (Char.ofNat (((a * 16 + b) * 16 + c) * 16 + d) :: acc) rest'
        | _, _, _, _ => Option.none
      | _ => Option.none
    | _ => Option.none
  | c :: rest => parseJStr (c :: acc) rest

/-- Parse a JSON number.  JSON integers become Python ints, numbers with a
fraction or exponent become floats, mirroring `json.load`. -/
def parseJNum (cs : List Char) : Option (PyVal × List Char) :=
  let (neg, cs) : Bool × List Char :=
    match cs with
    | '-' :: rest => (true, rest)
    | _ => (false, cs)
  let intPart := cs.takeWhile (·.isDigit)
  let cs := cs.dropWhile (·.isDigit)
  if intPart = [] then Option.none else
  let (fracPart, isFrac, cs) : List Char × Bool × List Char :=
    match cs with
    | '.' :: rest => (rest.takeWhile (·.isDigit), true, rest.dropWhile (·.isDigit))
    | _ => ([], false, cs)
  if isFrac ∧ fracPart = [] then Option.none else
  let m : Int := (digitsToNat (intPart ++ fracPart) : Int)
  let m : Int := if neg then -m else m
  let mkQ (esign : Bool) (e : Nat) : Rat :=
    if esign then mkRat m (10 ^ (fracPart.length + e))
    else mkRat (m * (10 : Int) ^ e) (10 ^ fracPart.length)
  match cs with
  | 'e' :: rest | 'E' :: rest =>
    let (esign, rest) : Bool × List Char :=
      match rest with
      | '-' :: r => (true, r)
      | '+' :: r => (false, r)
      | _ => (false, rest)
    let expPart := rest.takeWhile (·.isDigit)
    let rest := rest.dropWhile (·.isDigit)
    if expPart = [] then Option.none else
    some (.float (mkQ esign (digitsToNat expPart)), rest)
  | _ =>
    if isFrac then some (.float (mkQ false 0), cs)
    else
      let n : Int := (digitsToNat intPart : Int)
      some (.int (if neg then -n else n), cs)

mutual

/-- Parse one JSON value (fuel-indexed recursive descent). -/
def parseJVal (fuel : Nat) (cs : List Char) : Option (PyVal × List Char) :=
  match fuel with
  | 0 => Option.none
  | fuel + 1 =>
    match jsonSkipWs cs with
    | 'n' :: 'u' :: 'l' :: 'l' :: rest => some (.none, rest)
    | 't' :: 'r' :: 'u' :: 'e' :: rest => some (.bool true, rest)
    | 'f' :: 'a' :: 'l' :: 's' :: 'e' :: rest => some (.bool false, rest)
    | '"' :: rest => (parseJStr [] rest).map (fun p => (.str p.1, p.2))
    | '[' :: rest => parseJArr fuel (jsonSkipWs rest) true
    | '\x7b' :: rest => parseJObj fuel (jsonSkipWs rest) true
    | cs' => parseJNum cs'

/-- Parse the elements of a JSON array after `[` (or after a `,`). -/
def parseJArr (fuel : Nat) (cs : List Char) (first : Bool) :
    Option (PyVal × List Char) :=
  match fuel with
  | 0 => Option.none
  | fuel + 1 =>
    match first, cs with
    | true, ']' :: rest => some (.list [], rest)
    | _, _ =>
      match parseJVal fuel cs with
      | Option.none => Option.none
      | some (v, rest) =>
        match jsonSkipWs rest with
        | ']' :: rest' => some (.list [v], rest')
        | ',' :: rest' =>
          match parseJArr fuel (jsonSkipWs rest') false with
          | some (.list vs, rest'') => some (.list (v :: vs), rest'')
          | _ => Option.none
        | _ => Option.none

/-- Parse the members of a JSON object after `{` (or after a `,`). -/
def parseJObj (fuel : Nat) (cs : List Char) (first : Bool) :
    Option (PyVal × List Char) :=
  match fuel with
  | 0 => Option.none
  | fuel + 1 =>
    match first, cs with
    | true, '\x7d' :: rest => some (.dict [], rest)
    | _, _ =>
      match cs with
      | '"' :: rest =>
        match parseJStr [] rest with
        | Option.none => Option.none
        | some (k, rest') =>
          match jsonSkipWs rest' with
          | ':' :: rest'' =>
            match parseJVal fuel rest'' with
            | Option.none => Option.none
            | some (v, rest3) =>
              match jsonSkipWs rest3 with
              | '\x7d' :: rest4 => some (.dict [(k, v)], rest4)
              | ',' :: rest4 =>
                match parseJObj fuel (jsonSkipWs rest4) false with
                | some (.dict kvs, rest5) => some (.dict ((k, v) :: kvs), rest5)
                | _ => Option.none
              | _ => Option.none
          | _ => Option.none
      | _ => Option.none

end

/-- Python `json.load(f)` on text `s`: `some v` when `s` is a JSON document
denoting `v`, `Option.none` when `json.JSONDecodeError` would be raised. -/
def json_loads (s : String) : Option PyVal :=
  match parseJVal (s.length + 1) s.data with
  | some (v, rest) => if jsonSkipWs rest = [] then some v else Option.none
  | Option.none => Option.none

/-- Escape one character for a JSON string literal, as `json.dumps` does. -/
def jsonEscapeChar (c : Char) : String :=
  if c = '"' then "\\\""
  else if c = '\\' then "\\\\"
  else if c = '\n' then "\\n"
  else if c = '\t' then "\\t"
  else if c = '\r' then "\\r"
  else if c.toNat < 32 then
    let d := fun (n : Nat) =>
      String.mk [if n < 10 then Char.ofNat ('0'.toNat + n) else Char.ofNat ('a'.toNat + n - 10)]
    "\\u00" ++ d (c.toNat / 16) ++ d (c.toNat % 16)
  else String.mk [c]

/-- Render a `Rat` in decimal when its denominator is a power of ten times a
power of two and five; falls back to `num/den`.  Only used to model
`json.dumps` on floats, which no claim inspects. -/
def ratRepr (q : Rat) : String :=
  if q.den = 1 then toString q.num ++ ".0" else toString q.num ++ "/" ++ toString q.den

mutual

/-- Python `json.dumps(v)` with default separators (`", "`, `": "`). -/
def pyDumps : PyVal → String
  | .none => "null"
  | .bool true => "true"
  | .bool false => "false"
  | .int n => toString n
  | .float q => ratRepr q
  | .str s => "\"" ++ String.join (s.data.map jsonEscapeChar) ++ "\""
  | .list xs => "[" ++ pyDumpsList xs ++ "]"
  | .dict kvs => "\x7b" ++ pyDumpsKvs kvs ++ "\x7d"

/-- Comma-separated rendering of list elements. -/
def pyDumpsList : List PyVal → String
  | [] => ""
  | [x] => pyDumps x
  | x :: xs => pyDumps x ++ ", " ++ pyDumpsList xs

/-- Comma-separated rendering of dict members. -/
def pyDumpsKvs : List (String × PyVal) → String
  | [] => ""
  | [(k, v)] => "\"" ++ String.join (k.data.map jsonEscapeChar) ++ "\": " ++ pyDumps v
  | (k, v) :: kvs =>
    "\"" ++ String.join (k.data.map jsonEscapeChar) ++ "\": " ++ pyDumps v ++ ", " ++ pyDumpsKvs kvs

end

/-! ### Filesystem model -/

/-- A filesystem subtree: a regular file with text content, or a directory
with a named entry list (list order = directory-listing order, i.e. the
order `Path.iterdir` yields entries). -/
inductive FsEntry where
  | file (content : String)
  | dir (entries : List (String × FsEntry))

/-- `Path.is_dir()`. -/
def FsEntry.isDir : FsEntry → Bool
  | .dir _ => true
  | .file _ => false

/-- Look an entry up in a directory-entry list (first binding). -/
def fsLookup (es : List (String × FsEntry)) (n : String) : Option FsEntry :=
  match es with
  | [] => Option.none
  | (n', e) :: rest => if n' = n then some e else fsLookup rest n

/-- `(t / name)` as an entry: `some` when `(t / name).exists()`. -/
def entryNamed (t : FsEntry) (name : String) : Option FsEntry :=
  match t with
  | .dir es => fsLookup es name
  | .file _ => Option.none

/-- Follow a relative path; `some` when the full path `exists()`. -/
def pathLookup (t : FsEntry) : List String → Option FsEntry
  | [] => some t
  | n :: rest =>
    match entryNamed t n with
    | some sub => pathLookup sub rest
    | Option.none => Option.none

/-! ### `harbor_runner.find_trial_directory` -/

/-- The inner loop of `find_trial_directory`: the first entry of a
timestamped directory that is itself a directory and whose `agent` child
path `exists()` (note: `exists()`, of any kind). -/
def findTrialIn (tentries : List (String × FsEntry)) : Option (String × FsEntry) :=
  match tentries with
  | [] => Option.none
  | (tname, t) :: rest =>
    if t.isDir then
      match entryNamed t "agent" with
      | some _ => some (tname, t)
      | Option.none => findTrialIn rest
    else findTrialIn rest

/-- The outer loop of `find_trial_directory` over the timestamped
directories found in the output directory. -/
def findTrialOuter (date_dirs : List (String × FsEntry)) :
    Option (String × String × FsEntry) :=
  match date_dirs with
  | [] => Option.none
  | (dname, d) :: rest =>
    match d with
    | .dir tentries =>
      match findTrialIn tentries with
      | some (tname, t) => some (dname, tname, t)
      | Option.none => findTrialOuter rest
    | .file _ => findTrialOuter rest

/-- `find_trial_directory(output_dir)`.  The argument is the subtree at
`output_dir` (`Option.none` when the output directory does not exist, in
which case the function logs and returns `None`).  The result names the
timestamped directory, the trial directory, and the trial subtree.
`list(output_path.iterdir())` on a regular file raises
`NotADirectoryError`, which `find_trial_directory` does not catch. -/
def find_trial_directory (output : Option FsEntry) :
    Except PyErr (Option (String × String × FsEntry)) :=
  match output with
  | Option.none => .ok Option.none
  | some (.file _) => .error (.notADirectoryError "Not a directory")
  | some (.dir date_dirs) => .ok (findTrialOuter date_dirs)

/-- All `(dateName, trialName, trial)` candidates in nested listing order:
directory entries of each timestamped directory that are directories
themselves.  (Specification-side helper for claim C7.) -/
def trialCandidates (date_dirs : List (String × FsEntry)) :
    List (String × String × FsEntry) :=
  date_dirs.flatMap (fun de =>
    match de.2 with
    | .dir ts => ts.filterMap (fun te =>
        if te.2.isDir then some (de.1, te.1, te.2) else Option.none)
    | .file _ => [])

/-- Modelled from the spec sentence of claim C7: the first trial directory
(in directory-listing order) that contains an `agent` subdirectory. -/
def firstTrialWithAgentSubdir (date_dirs : List (String × FsEntry)) :
    Option (String × String × FsEntry) :=
  (trialCandidates date_dirs).find? (fun c =>
    match entryNamed c.2.2 "agent" with
    | some (.dir _) => true
    | _ => false)

/-- The first trial directory (in directory-listing order) that contains
an entry named `agent` of any kind — what the code actually selects. -/
def firstTrialWithAgentEntry (date_dirs : List (String × FsEntry)) :
    Option (String × String × FsEntry) :=
  (trialCandidates date_dirs).find? (fun c => (entryNamed c.2.2 "agent").isSome)

/-! ### `harbor_runner.parse_episodes` -/

/-- The dictionary `parse_episodes` appends per episode. -/
structure EpisodeDict where
  episode_number : Int
  analysis : PyVal
  plan : PyVal
  commands : String
  task_complete : PyVal

/-- `int(episode_dir.name.split('-')[1])`, as an `Option`:
the second `'-'`-separated field of the name, parsed as a Python int. -/
def epNum? (name : String) : Option Int :=
  pyInt? (((pySplit name '-').drop 1).headD "")

/-- The entries of `agent/` that the `parse_episodes` comprehension keeps:
directories whose name starts with `episode-`
(`d.is_dir() and d.name.startswith('episode-')`). -/
def epiEntries (agentEntries : List (String × FsEntry)) :
    List (String × FsEntry) :=
  agentEntries.filter (fun e => e.2.isDir && pyStartsWith e.1 "episode-")

/-- The episode directories `parse_episodes` iterates over: the kept
entries, sorted (Python `sorted` on sibling paths = ascending name order,
stable). -/
def episodeDirs (agentEntries : List (String × FsEntry)) :
    List (String × FsEntry) :=
  List.insertionSort (fun a b => strLtb b.1 a.1 = false) (epiEntries agentEntries)

/-- One iteration of the `parse_episodes` loop body on an episode
directory entry.  `Except.error` is the uncaught `ValueError` from
`int(...)` (evaluated before the `try` block); `.ok Option.none` means the
episode was skipped (missing `response.txt`, unreadable file, JSON decode
failure, or a JSON value without `.get` — everything the
`except` clauses swallow); `.ok (some d)` is an appended episode dict. -/
def parseOneEpisode (name : String) (sub : FsEntry) :
    Except PyErr (Option EpisodeDict) :=
  match epNum? name with
  | Option.none => .error (.valueError ("invalid literal for int with base 10: " ++ name))
  | some num =>
    match entryNamed sub "response.txt" with
    | Option.none => .ok Option.none
    | some (.dir _) => .ok Option.none
    | some (.file content) =>
      match json_loads content with
      | Option.none => .ok Option.none
      | some (PyVal.dict kvs) =>
        .ok (some
          { episode_number := num
            analysis := (kvLookup kvs "analysis").getD (.str "")
            plan := (kvLookup kvs "plan").getD (.str "")
            commands := pyDumps ((kvLookup kvs "commands").getD (.list []))
            task_complete := (kvLookup kvs "task_complete").getD (.bool false) })
      | some _ => .ok Option.none

/-- The `parse_episodes` loop over the sorted episode directories. -/
def parseEpisodesFrom : List (String × FsEntry) → Except PyErr (List EpisodeDict)
  | [] => .ok []
  | e :: rest => do
    let h ← parseOneEpisode e.1 e.2
    let t ← parseEpisodesFrom rest
    match h with
    | some ep => .ok (ep :: t)
    | Option.none => .ok t

/-- `parse_episodes(trial_dir)`.  When `agent` does not exist the function
returns `[]`; when `agent` exists but is a regular file, `iterdir()`
raises `NotADirectoryError` (uncaught); otherwise it loops over the
sorted `episode-*` subdirectories. -/
def parse_episodes (trial : FsEntry) : Except PyErr (List EpisodeDict) :=
  match entryNamed trial "agent" with
  | Option.none => .ok []
  | some (.file _) => .error (.notADirectoryError "Not a directory: agent")
  | some (.dir agentEntries) => parseEpisodesFrom (episodeDirs agentEntries)

/-! ### `harbor_runner.parse_test_results` -/

/-- The dictionary `parse_test_results` builds per test entry.  Fields
hold the Python values the comprehension produces (`error_message` is the
Python value `None` for non-failed tests). -/
structure TestDict where
  test_name : PyVal
  status : PyVal
  duration_ms : PyVal
  error_message : PyVal

/-- `v == "s"` in Python (equality of a JSON value with a string). -/
def PyVal.isStrVal (v : PyVal) (s : String) : Bool :=
  match v with
  | .str s' => s' = s
  | _ => false

/-- One element of the `parse_test_results` comprehension:
`test.get('name', '')`, `test.get('status', 'unknown')`,
`test.get('duration', 0)`, and `test.get('message', '')` only when
`test.get('status') == 'failed'`, else `None`.  A non-dict entry makes
`.get` raise `AttributeError` (caught by the surrounding `except`). -/
def parseOneTest (t : PyVal) : Except PyErr TestDict := do
  let name ← pyGetD t "name" (.str "")
  let status ← pyGetD t "status" (.str "unknown")
  let dur ← pyGetD t "duration" (.int 0)
  let sRaw ← pyGet t "status"
  let msg ← if sRaw.isStrVal "failed" then pyGetD t "message" (.str "") else pure PyVal.none
  pure { test_name := name, status := status, duration_ms := dur, error_message := msg }

/-- The `parse_test_results` comprehension over the `tests` list (left to
right; the first raising entry aborts the whole comprehension). -/
def parseTests : List PyVal → Except PyErr (List TestDict)
  | [] => .ok []
  | t :: rest => do
    let d ← parseOneTest t
    let ds ← parseTests rest
    .ok (d :: ds)

/-- `parse_test_results(trial_dir)`: read `verifier/ctrf.json`, navigate
`results` → `tests` (with `{}` / `[]` defaults), and map the
comprehension over the entries; any exception inside the `try` (missing
`.get`, JSON decode failure, a non-list `tests` whose iteration faults,
opening a directory) yields `[]`.  A missing file yields `[]` directly. -/
def parse_test_results (trial : FsEntry) : List TestDict :=
  match pathLookup trial ["verifier", "ctrf.json"] with
  | Option.none => []
  | some (.dir _) => []
  | some (.file content) =>
    match json_loads content with
    | Option.none => []
    | some ctrf =>
      match pyGetD ctrf "results" (.dict []) with
      | .error _ => []
      | .ok results =>
        match pyGetD results "tests" (.list []) with
        | .error _ => []
        | .ok tests =>
          match tests with
          | PyVal.list ts =>
            match parseTests ts with
            | .ok l => l
            | .error _ => []
          | PyVal.str _ => []
          | _ => []

/-! ### `harbor_runner.parse_reward` -/

/-- `parse_reward(trial_dir)`: read `verifier/reward.txt`, strip it and
parse as a Python float; a missing file yields `0.0` before the `try`, and
any exception inside it (unreadable file, `float(...)` `ValueError`)
yields `0.0`. -/
def parse_reward (trial : FsEntry) : Rat :=
  match pathLookup trial ["verifier", "reward.txt"] with
  | Option.none => 0
  | some (.dir _) => 0
  | some (.file content) =>
    match pyFloat? (pyStrip content) with
    | some q => q
    | Option.none => 0

/-! ### `harbor_runner.execute_harbor` -/

/-- Outcome of the `subprocess.run` call on the runner binary. -/
inductive SubprocOutcome where
  | completed (returncode : Int) (stdout : String) (stderr : String)
  | timeoutExpired
  | raised (msg : String)

/-- The environment-dependent inputs of one `execute_harbor` call:
configuration flags, what the staging gateway and the subprocess did, and
the filesystem tree left at `output_dir` (`Option.none` when the
directory does not exist). -/
structure HarborEnv where
  use_cloud_storage : Bool
  task_path : String
  task_path_exists : Bool
  s3_download_ok : Bool
  harbor_bin : String
  harbor_bin_exists : Bool
  subprocess : SubprocOutcome
  output_dir : String
  output_fs : Option FsEntry
  upload_ok : Bool

/-- The result dict of `execute_harbor` (keys `success`, `error`,
`output_path`, `reward`, `episodes`, `test_results`). -/
structure HarborResult where
  success : Bool
  error : Option String
  output_path : Option String
  reward : Rat
  episodes : List EpisodeDict
  test_results : List TestDict

/-- The failure dict every non-success return of `execute_harbor` builds:
`success=False`, the given error string, `output_path=None`,
`reward=0.0`, empty `episodes` and `test_results`. -/
def failureResult (msg : String) : HarborResult :=
  { success := false, error := some msg, output_path := Option.none,
    reward := 0, episodes := [], test_results := [] }

/-- `is_s3_path = USE_CLOUD_STORAGE and (not task_path.startswith('/') or
not Path(task_path).exists())`. -/
def HarborEnv.isS3Path (env : HarborEnv) : Bool :=
  env.use_cloud_storage && (!(pyStartsWith env.task_path "/") || !env.task_path_exists)

/-- `execute_harbor(task_path, model, output_dir, openrouter_api_key)`.

Control flow of the function body, in source order: S3 staging (failure
returns a download-error dict), harbor-binary existence check, the
`subprocess.run` call (the Docker availability probe before it only logs
and swallows its own exceptions, so it cannot affect the result), the
nonzero-exit check, trial-directory discovery, parsing, and the success
dict.  `subprocess.TimeoutExpired` and any other exception raised inside
the `try` (including `find_trial_directory` / `parse_episodes` faults) are
converted by the two `except` clauses into failure dicts; the `finally`
temp-directory cleanup does not touch the result.  The S3 output upload
only logs on failure. -/
def execute_harbor (env : HarborEnv) : HarborResult :=
  if env.isS3Path && !env.s3_download_ok then
    failureResult ("Failed to download task from S3: " ++ env.task_path)
  else if !env.harbor_bin_exists then
    failureResult ("Harbor executable not found at " ++ env.harbor_bin ++
      ". Set HARBOR_BIN env var or install Harbor in harbor-venv/")
  else
    match env.subprocess with
    | .timeoutExpired => failureResult "Harbor execution timed out after 30 minutes"
    | .raised m => failureResult ("Unexpected error: " ++ m)
    | .completed rc out err =>
      if rc ≠ 0 then
        failureResult ("Harbor execution failed (exit " ++ toString rc ++
          "):\n\nSTDERR:\n" ++ (err.take 5000) ++ "\n\nSTDOUT:\n" ++ (out.take 2000))
      else
        match find_trial_directory env.output_fs with
        | .error e => failureResult ("Unexpected error: " ++ e.msg)
        | .ok Option.none => failureResult "Could not find trial directory in output"
        | .ok (some (dname, tname, trial)) =>
          match parse_episodes trial with
          | .error e => failureResult ("Unexpected error: " ++ e.msg)
          | .ok episodes =>
            { success := true
              output_path := some (env.output_dir ++ "/" ++ dname ++ "/" ++ tname)
              reward := parse_reward trial
              episodes := episodes
              test_results := parse_test_results trial
              error := Option.none }

/-! ### Data model (`database.py`) -/

/-- A row of the `runs` table. -/
structure RunRec where
  id : Nat
  task_id : Nat
  model : String
  status : String := "queued"
  completed_at : Option Nat := Option.none

/-- A row of the `attempts` table.  The defaults mirror the column
defaults: `status` defaults to `queued` and every nullable column to
NULL. -/
structure AttemptRec where
  id : Nat
  run_id : Nat
  attempt_number : Nat
  status : String := "queued"
  reward : Option Rat := Option.none
  episode_count : Option Nat := Option.none
  output_path : Option String := Option.none
  error_message : Option String := Option.none
  completed_at : Option Nat := Option.none

/-- A row of the `episodes` table. -/
structure EpisodeRow where
  attempt_id : Nat
  episode_number : Int
  analysis : PyVal
  plan : PyVal
  commands : String
  task_complete : PyVal

/-- A row of the `test_results` table. -/
structure TestResultRow where
  attempt_id : Nat
  test_name : PyVal
  status : PyVal
  duration_ms : PyVal
  error_message : PyVal

/-- The persisted state the executor reads and writes. -/
structure DB where
  runs : List RunRec
  attempts : List AttemptRec
  episodes : List EpisodeRow
  test_results : List TestResultRow

/-- `db.query(Attempt).filter(Attempt.id == attempt_id).first()`. -/
def findAttempt (db : DB) (aid : Nat) : Option AttemptRec :=
  db.attempts.find? (fun a => a.id == aid)

/-- Mutate the attempt row(s) with the given id. -/
def updateAttempt (db : DB) (aid : Nat) (f : AttemptRec → AttemptRec) : DB :=
  { db with attempts := db.attempts.map (fun a => if a.id == aid then f a else a) }

/-- The attempts of a run that are still `running`
(`[a for a in run.attempts if a.status == 'running']`). -/
def runningAttempts (db : DB) (rid : Nat) : List AttemptRec :=
  db.attempts.filter (fun a => a.run_id == rid && a.status == "running")

/-! ### `celery_worker.update_run_status_if_complete` -/

/-- `update_run_status_if_complete(run_id, db)`: look the run up; if it
exists and none of its attempts is `running`, set its status to
`completed` and commit.  (`main.update_run_status_if_complete_local` is
line-for-line the same logic with `pass` instead of logging in the
`except`; both are modelled by this one function.) -/
def update_run_status_if_complete (run_id : Nat) (db : DB) : DB :=
  match db.runs.find? (fun r => r.id == run_id) with
  | Option.none => db
  | some _ =>
    if (runningAttempts db run_id).length = 0 then
      { db with runs := db.runs.map (fun r =>
          if r.id == run_id then { r with status := "completed" } else r) }
    else db

/-! ### `celery_worker.execute_harbor_task` / `main.execute_attempt_locally` -/

/-- How one executor invocation went: either `execute_harbor` returned a
result dict (it is total, so this is the only normal flow), or an
unexpected exception escaped the body before the result writes (for
example a persistence fault) and reached the top-level `except` handler,
carrying `str(e)`. -/
inductive TaskOutcome where
  | normal (result : HarborResult)
  | fault (msg : String)

/-- The success branch of the executor: set `status`, `reward`,
`episode_count`, `output_path`, clear `error_message`, stamp
`completed_at`, bulk-insert episodes and test results, commit, then
recompute the parent run status. -/
def finalizeSuccess (db : DB) (aid : Nat) (rid : Nat) (r : HarborResult) (now : Nat) : DB :=
  let db := updateAttempt db aid (fun a =>
    { a with status := "completed", reward := some r.reward,
             episode_count := some r.episodes.length,
             output_path := r.output_path,
             error_message := Option.none,
             completed_at := some now })
  let db :=
    { db with
      episodes := db.episodes ++ r.episodes.map (fun e =>
        { attempt_id := aid, episode_number := e.episode_number,
          analysis := e.analysis, plan := e.plan, commands := e.commands,
          task_complete := e.task_complete }),
      test_results := db.test_results ++ r.test_results.map (fun t =>
        { attempt_id := aid, test_name := t.test_name, status := t.status,
          duration_ms := t.duration_ms, error_message := t.error_message }) }
  update_run_status_if_complete rid db

/-- The handled-failure branch of the executor: set `status := failed`,
`reward := 0.0`, the result's error message, stamp `completed_at`,
commit, then recompute the parent run status. -/
def finalizeFailure (db : DB) (aid : Nat) (rid : Nat) (r : HarborResult) (now : Nat) : DB :=
  let db := updateAttempt db aid (fun a =>
    { a with status := "failed", reward := some 0,
             error_message := r.error, completed_at := some now })
  update_run_status_if_complete rid db

/-- The top-level `except Exception` handler of both executors: re-query
the attempt and, when present, set `status := failed`, a
`Worker error: ...` message and `completed_at` — and nothing else: the
reward is left untouched and the run status is not recomputed. -/
def finalizeFault (db : DB) (aid : Nat) (msg : String) (now : Nat) : DB :=
  match findAttempt db aid with
  | Option.none => db
  | some _ =>
    updateAttempt db aid (fun a =>
      { a with status := "failed",
               error_message := some ("Worker error: " ++ msg),
               completed_at := some now })

/-- `execute_harbor_task(attempt_id, ...)` as a transition on the
persisted state, given how the Harbor invocation went and the completion
instant.  The returned Bool is whether the task re-raised (a missing
attempt raises `ValueError`, which the handler — finding no attempt —
re-raises; a fault is re-raised for the Celery retry machinery after the
handler runs). -/
def execute_harbor_task (db : DB) (attempt_id : Nat) (outcome : TaskOutcome)
    (now : Nat) : DB × Bool :=
  match findAttempt db attempt_id with
  | Option.none => (finalizeFault db attempt_id ("Attempt " ++ toString attempt_id ++ " not found in database") now, true)
  | some att =>
    match outcome with
    | .normal r =>
      if r.success then (finalizeSuccess db attempt_id att.run_id r now, false)
      else (finalizeFailure db attempt_id att.run_id r now, false)
    | .fault m => (finalizeFault db attempt_id m now, true)

/-- `main.execute_attempt_locally(attempt_id, ...)`: the same lifecycle
run in a background thread.  A missing attempt returns silently; the
fault handler swallows the exception instead of re-raising.  The state
transition on the attempt/run rows is the same as the Celery task's. -/
def execute_attempt_locally (db : DB) (attempt_id : Nat) (outcome : TaskOutcome)
    (now : Nat) : DB :=
  match findAttempt db attempt_id with
  | Option.none => db
  | some att =>
    match outcome with
    | .normal r =>
      if r.success then finalizeSuccess db attempt_id att.run_id r now
      else finalizeFailure db attempt_id att.run_id r now
    | .fault m => finalizeFault db attempt_id m now

/-! ### `main.create_run` (dispatcher) -/

/-- One dispatched execution request: a Celery `delay(...)` message on the
distributed path, or a started background thread on the local path —
both carry the same arguments. -/
structure DispatchMsg where
  celery : Bool
  attempt_id : Nat
  task_path : String
  model : String
  output_dir : String

/-- `POST /api/tasks/{task_id}/runs` (`create_run`), restricted to its
persistence/dispatch effect.  `task_file_path` is the stored task
location of the task row (`Option.none` models a missing Task row:
`HTTPException 404`), `api_key` is `os.getenv('OPENROUTER_API_KEY')`
(`Option.none`: `HTTPException 500`); in both error cases nothing is
persisted.  Otherwise: a run row is inserted (created `queued`, set to
`running` once all attempts are enqueued), and for `i` in
`range(n_attempts)` one attempt row with `attempt_number = i+1` and
status `running` is inserted (`db.flush()` assigns the next sequential
id, modelled by `first_attempt_id`) and one execution is dispatched —
`execute_harbor_task.delay(...)` when `USE_CELERY` else a daemon thread
on `execute_attempt_locally`.  Dispatches are returned as messages; no
attempt has executed yet in the returned state. -/
def create_run (db : DB) (task_file_path : Option String) (api_key : Option String)
    (task_id : Nat) (model : String) (n_attempts : Nat)
    (run_id : Nat) (first_attempt_id : Nat) (output_root : String)
    (use_celery : Bool) : Option (DB × List DispatchMsg) :=
  match task_file_path, api_key with
  | Option.none, _ => Option.none
  | _, Option.none => Option.none
  | some fp, some _ =>
    let newAttempts : List AttemptRec := (List.range n_attempts).map (fun i =>
      { id := first_attempt_id + i, run_id := run_id,
        attempt_number := i + 1, status := "running" })
    let msgs : List DispatchMsg := (List.range n_attempts).map (fun i =>
      { celery := use_celery, attempt_id := first_attempt_id + i,
        task_path := fp, model := model,
        output_dir := output_root ++ "/run_" ++ toString run_id ++
          "_attempt_" ++ toString (i + 1) })
    let db :=
      { db with
        runs := db.runs ++ [{ id := run_id, task_id := task_id, model := model,
                              status := "running" }],
        attempts := db.attempts ++ newAttempts }
    some (db, msgs)

/-! ### Spec-side predicates and concrete fixtures used by the claims -/

/-- Does a parsed status value lie in the enumeration
`passed | failed | skipped | unknown`? -/
def statusInEnum (v : PyVal) : Bool :=
  v.isStrVal "passed" || v.isStrVal "failed" || v.isStrVal "skipped" || v.isStrVal "unknown"

/-- A well-formed episode directory entry as claim C6 requires: an
integer `episode-<n>` suffix and a `response.txt` file whose content is a
valid JSON object. -/
def GoodEpisode (e : String × FsEntry) : Prop :=
  ∃ n c kvs, epNum? e.1 = some n ∧
    entryNamed e.2 "response.txt" = some (.file c) ∧
    json_loads c = some (.dict kvs)

/-- A one-attempt database in which the attempt is `running` and its
reward is still NULL (exactly how `create_run` persists attempts). -/
def dbOneRunning : DB :=
  { runs := [{ id := 1, task_id := 1, model := "m", status := "running" }],
    attempts := [{ id := 1, run_id := 1, attempt_number := 1, status := "running" }],
    episodes := [], test_results := [] }

/-- Same shape, distinct fixture for claim C2. -/
def dbOneRunning2 : DB :=
  { runs := [{ id := 7, task_id := 2, model := "m", status := "running" }],
    attempts := [{ id := 4, run_id := 7, attempt_number := 1, status := "running" }],
    episodes := [], test_results := [] }

/-- Trial tree for claim C3's counterexample: `agent/` holds a directory
named `episode-x` (which starts with `episode-` but has no integer
suffix) next to a perfectly well-formed `episode-1`. -/
def trialC3 : FsEntry :=
  .dir [("agent", .dir
    [("episode-x", .dir []),
     ("episode-1", .dir [("response.txt", .file "\x7b\x7d")])])]

/-- Agent listing for claim C3's witness: a well-formed `episode-1` next
to an `episode-2` whose `response.txt` is not valid JSON. -/
def agentC3w : List (String × FsEntry) :=
  [("episode-1", .dir [("response.txt", .file "\x7b\"analysis\": \"a\"\x7d")]),
   ("episode-2", .dir [("response.txt", .file "not json")])]

/-- Trial tree built from `agentC3w`. -/
def trialC3w : FsEntry :=
  .dir [("agent", .dir agentC3w)]

/-- Trial tree whose ctrf.json carries one test with the out-of-enumeration
status `errored` (claim C4). -/
def trialC4 : FsEntry :=
  .dir [("verifier", .dir [("ctrf.json", .file
    "\x7b\"results\": \x7b\"tests\": [\x7b\"name\": \"t\", \"status\": \"errored\", \"message\": \"m\"\x7d]\x7d\x7d")])]

/-- Trial tree whose ctrf.json carries one failed test with a message
(claim C5's witness). -/
def trialC5 : FsEntry :=
  .dir [("verifier", .dir [("ctrf.json", .file
    "\x7b\"results\": \x7b\"tests\": [\x7b\"name\": \"t1\", \"status\": \"failed\", \"duration\": 5, \"message\": \"boom\"\x7d]\x7d\x7d")])]

/-- The test dict `parse_test_results trialC5` produces. -/
def tdC5 : TestDict :=
  { test_name := .str "t1", status := .str "failed",
    duration_ms := .int 5, error_message := .str "boom" }

/-- Synthetic trial tree for claim C6's witness: two well-formed episode
directories, a ctrf.json with two test entries, and a numeric reward. -/
def agentC6 : List (String × FsEntry) :=
  [("episode-1", .dir [("response.txt", .file "\x7b\"analysis\": \"a1\"\x7d")]),
   ("episode-2", .dir [("response.txt", .file "\x7b\"plan\": \"p2\"\x7d")]),
   ("notes.txt", .file "x")]

/-- The ctrf.json content of the C6 witness: two test entries. -/
def ctrfC6 : String :=
  "\x7b\"results\": \x7b\"tests\": [\x7b\"name\": \"t1\", \"status\": \"passed\"\x7d, \x7b\"name\": \"t2\", \"status\": \"failed\"\x7d]\x7d\x7d"

/-- The trial tree built from `agentC6` and `ctrfC6`. -/
def trialC6 : FsEntry :=
  .dir [("agent", .dir agentC6),
        ("verifier", .dir
          [("ctrf.json", .file ctrfC6),
           ("reward.txt", .file " 1 \n")])]

/-- Output tree for claim C7: listed first is a trial directory whose
`agent` is a regular file, listed second one whose `agent` is a
directory. -/
def outC7entries : List (String × FsEntry) :=
  [("2025-01-01__00-00-00", .dir
    [("trial1", .dir [("agent", .file "oops")]),
     ("trial2", .dir [("agent", .dir [])])])]

/-- The output tree built from `outC7entries`. -/
def outC7 : FsEntry := .dir outC7entries

/-- An environment whose subprocess timed out (claim C8's witness). -/
def envTimeout : HarborEnv :=
  { use_cloud_storage := false, task_path := "/data/task", task_path_exists := true,
    s3_download_ok := true, harbor_bin := "/usr/bin/harbor", harbor_bin_exists := true,
    subprocess := .timeoutExpired, output_dir := "/data/out",
    output_fs := Option.none, upload_ok := true }

/-! ## Helper lemmas -/

theorem find?_map_update (l : List AttemptRec) (aid : Nat) (f : AttemptRec → AttemptRec)
    (hf : ∀ a, (f a).id = a.id) :
    (l.map (fun a => if a.id == aid then f a else a)).find? (fun a => a.id == aid)
      = (l.find? (fun a => a.id == aid)).map f := by
  induction l with
  | nil => simp
  | cons a l ih =>
    by_cases h : a.id = aid
    · have hb : (a.id == aid) = true := by simpa using h
      have hbf : ((f a).id == aid) = true := by simp [hf, h]
      rw [List.map_cons, if_pos hb,
        List.find?_cons_of_pos (p := fun x : AttemptRec => x.id == aid) _ hbf,
        List.find?_cons_of_pos (p := fun x : AttemptRec => x.id == aid) _ hb]
      rfl
    · have hb : ¬ ((a.id == aid) = true) := by simpa using h
      rw [List.map_cons, if_neg hb,
        List.find?_cons_of_neg (p := fun x : AttemptRec => x.id == aid) _ hb,
        List.find?_cons_of_neg (p := fun x : AttemptRec => x.id == aid) _ hb]
      exact ih

theorem update_run_status_attempts (rid : Nat) (db : DB) :
    (update_run_status_if_complete rid db).attempts = db.attempts := by
  unfold update_run_status_if_complete
  cases db.runs.find? (fun r => r.id == rid) with
  | none => rfl
  | some r => by_cases h : (runningAttempts db rid).length = 0 <;> simp [h]

theorem findAttempt_updateAttempt (db : DB) (aid : Nat) (f : AttemptRec → AttemptRec)
    (hf : ∀ a, (f a).id = a.id) :
    findAttempt (updateAttempt db aid f) aid = (findAttempt db aid).map f := by
  unfold findAttempt updateAttempt
  exact find?_map_update db.attempts aid f hf

theorem findAttempt_finalizeSuccess (db : DB) (aid rid : Nat) (r : HarborResult) (now : Nat) :
    findAttempt (finalizeSuccess db aid rid r now) aid
      = (findAttempt db aid).map (fun a =>
          { a with status := "completed", reward := some r.reward,
                   episode_count := some r.episodes.length,
                   output_path := r.output_path,
                   error_message := Option.none,
                   completed_at := some now }) := by
  unfold finalizeSuccess
  rw [show ∀ db' : DB, findAttempt db' aid = db'.attempts.find? (fun a => a.id == aid) from fun _ => rfl]
  rw [update_run_status_attempts]
  exact find?_map_update db.attempts aid _ (fun a => rfl)

theorem findAttempt_finalizeFailure (db : DB) (aid rid : Nat) (r : HarborResult) (now : Nat) :
    findAttempt (finalizeFailure db aid rid r now) aid
      = (findAttempt db aid).map (fun a =>
          { a with status := "failed", reward := some 0,
                   error_message := r.error, completed_at := some now }) := by
  unfold finalizeFailure
  rw [show ∀ db' : DB, findAttempt db' aid = db'.attempts.find? (fun a => a.id == aid) from fun _ => rfl]
  rw [update_run_status_attempts]
  exact find?_map_update db.attempts aid _ (fun a => rfl)

theorem findAttempt_finalizeFault (db : DB) (aid : Nat) (m : String) (now : Nat) :
    findAttempt (finalizeFault db aid m now) aid
      = (findAttempt db aid).map (fun a =>
          { a with status := "failed",
                   error_message := some ("Worker error: " ++ m),
                   completed_at := some now }) := by
  cases h : findAttempt db aid with
  | none => simp [finalizeFault, h]
  | some att =>
    have hu := findAttempt_updateAttempt db aid (fun a =>
      { a with status := "failed", error_message := some ("Worker error: " ++ m),
               completed_at := some now }) (fun a => rfl)
    simp [finalizeFault, h, hu]

theorem finalizeFault_runs (db : DB) (aid : Nat) (m : String) (now : Nat) :
    (finalizeFault db aid m now).runs = db.runs := by
  unfold finalizeFault
  cases findAttempt db aid <;> rfl

theorem update_run_status_completed (rid : Nat) (db : DB)
    (h : (runningAttempts db rid).length = 0) :
    ∀ run ∈ (update_run_status_if_complete rid db).runs, run.id = rid →
      run.status = "completed" := by
  unfold update_run_status_if_complete
  cases hf : db.runs.find? (fun r => r.id == rid) with
  | none =>
    intro run hr hid
    exact absurd (beq_iff_eq.mpr hid) (by simpa using List.find?_eq_none.mp hf run hr)
  | some r0 =>
    rw [if_pos h]
    intro run hr hid
    obtain ⟨orig, horig, rfl⟩ := List.mem_map.mp hr
    by_cases ho : orig.id = rid
    · simp [ho]
    · rw [if_neg (by simpa using ho)] at hid ⊢
      exact absurd hid ho

theorem update_run_status_not_complete (rid : Nat) (db : DB)
    (h : (runningAttempts db rid).length ≠ 0) :
    (update_run_status_if_complete rid db).runs = db.runs := by
  unfold update_run_status_if_complete
  cases db.runs.find? (fun r => r.id == rid) with
  | none => rfl
  | some r0 => rw [if_neg h]

theorem execute_harbor_cases (env : HarborEnv) :
    (∃ m, execute_harbor env = failureResult m) ∨
    (∃ d t trial eps,
      find_trial_directory env.output_fs = .ok (some (d, t, trial)) ∧
      parse_episodes trial = .ok eps ∧
      execute_harbor env =
        { success := true,
          output_path := some (env.output_dir ++ "/" ++ d ++ "/" ++ t),
          reward := parse_reward trial, episodes := eps,
          test_results := parse_test_results trial, error := Option.none }) := by
  unfold execute_harbor
  split
  · exact .inl ⟨_, rfl⟩
  split
  · exact .inl ⟨_, rfl⟩
  split
  · exact .inl ⟨_, rfl⟩
  · exact .inl ⟨_, rfl⟩
  · split
    · exact .inl ⟨_, rfl⟩
    · split
      · exact .inl ⟨_, rfl⟩
      · exact .inl ⟨_, rfl⟩
      · split
        · exact .inl ⟨_, rfl⟩
        · rename_i a1 d t trial hfind a2 eps hep
          exact .inr ⟨d, t, trial, eps, hfind, hep, rfl⟩

theorem execute_harbor_task_normal (db : DB) (aid : Nat) (att : AttemptRec) (t : Nat)
    (r : HarborResult) (hatt : findAttempt db aid = some att) :
    (execute_harbor_task db aid (.normal r) t).1
      = if r.success then finalizeSuccess db aid att.run_id r t
        else finalizeFailure db aid att.run_id r t := by
  unfold execute_harbor_task
  rw [hatt]
  by_cases h : r.success <;> simp [h]

theorem execute_harbor_task_fault (db : DB) (aid : Nat) (att : AttemptRec) (t : Nat)
    (m : String) (hatt : findAttempt db aid = some att) :
    (execute_harbor_task db aid (.fault m) t).1 = finalizeFault db aid m t := by
  simp [execute_harbor_task, hatt]

theorem execute_attempt_locally_eq (db : DB) (aid : Nat) (att : AttemptRec) (t : Nat)
    (oc : TaskOutcome) (hatt : findAttempt db aid = some att) :
    execute_attempt_locally db aid oc t = (execute_harbor_task db aid oc t).1 := by
  unfold execute_attempt_locally execute_harbor_task
  rw [hatt]
  cases oc with
  | normal r => by_cases h : r.success <;> simp [h]
  | fault m => simp

theorem execute_harbor_timeout (env : HarborEnv)
    (hs3 : (env.isS3Path && !env.s3_download_ok) = false)
    (hbin : env.harbor_bin_exists = true)
    (hto : env.subprocess = SubprocOutcome.timeoutExpired) :
    execute_harbor env = failureResult "Harbor execution timed out after 30 minutes" := by
  unfold execute_harbor
  simp [hs3, hbin, hto]

/-! ## Claim C10 -/

/-- C10: `execute_harbor` is total — for every input it returns a result
record with exactly the fields `success`, `error`, `output_path`,
`reward`, `episodes`, `test_results` (the `HarborResult` structure);
whenever `success` is false the reward is `0.0`, the episode and
test-result lists are empty and the error is a non-null string; whenever
`success` is true the error is null and the output path is the selected
trial directory. -/
theorem execute_harbor_result_shape (env : HarborEnv) :
    ((execute_harbor env).success = false →
      (execute_harbor env).reward = 0 ∧ (execute_harbor env).episodes = [] ∧
      (execute_harbor env).test_results = [] ∧ ∃ m, (execute_harbor env).error = some m) ∧
    ((execute_harbor env).success = true →
      (execute_harbor env).error = Option.none ∧
      ∃ d t trial, find_trial_directory env.output_fs = Except.ok (some (d, t, trial)) ∧
        (execute_harbor env).output_path = some (env.output_dir ++ "/" ++ d ++ "/" ++ t)) := by
  rcases execute_harbor_cases env with ⟨m, hm⟩ | ⟨d, t, trial, eps, hfind, hep, hr⟩
  · rw [hm]
    exact ⟨fun _ => ⟨rfl, rfl, rfl, m, rfl⟩, fun h => by simp [failureResult] at h⟩
  · rw [hr]
    exact ⟨fun h => by simp at h, fun _ => ⟨rfl, d, t, trial, hfind, rfl⟩⟩

/-- Witness for C10 at the concrete timed-out environment. -/
theorem execute_harbor_result_shape_witness :
    (execute_harbor envTimeout).success = false ∧
    ((execute_harbor envTimeout).reward = 0 ∧ (execute_harbor envTimeout).episodes = [] ∧
      (execute_harbor envTimeout).test_results = [] ∧
      ∃ m, (execute_harbor envTimeout).error = some m) :=
  ⟨rfl, (execute_harbor_result_shape envTimeout).1 rfl⟩

/-! ## Claim C8 -/

/-- C8: when the runner subprocess exceeds the 30-minute wall-clock
timeout, the outcome is classified as a timeout (the dedicated
timed-out failure dict) and the Attempt is finalized with status
`failed`, reward `0.0` and an error message indicating the timeout. -/
theorem timeout_attempt_failed (env : HarborEnv) (db : DB) (aid : Nat) (att : AttemptRec)
    (t : Nat)
    (hto : env.subprocess = SubprocOutcome.timeoutExpired)
    (hs3 : (env.isS3Path && !env.s3_download_ok) = false)
    (hbin : env.harbor_bin_exists = true)
    (hatt : findAttempt db aid = some att) :
    execute_harbor env = failureResult "Harbor execution timed out after 30 minutes" ∧
    ∃ a', findAttempt (execute_harbor_task db aid (.normal (execute_harbor env)) t).1 aid
            = some a' ∧
      a'.status = "failed" ∧ a'.reward = some 0 ∧
      a'.error_message = some "Harbor execution timed out after 30 minutes" ∧
      a'.completed_at = some t := by
  have hx := execute_harbor_timeout env hs3 hbin hto
  refine ⟨hx, ?_⟩
  rw [hx, execute_harbor_task_normal db aid att t _ hatt,
    if_neg (by simp [failureResult]), findAttempt_finalizeFailure, hatt]
  exact ⟨_, rfl, rfl, rfl, rfl, rfl⟩

/-- Witness for C8: the timed-out environment against a one-attempt
database. -/
theorem timeout_attempt_failed_witness :
    (envTimeout.subprocess = SubprocOutcome.timeoutExpired ∧
      (envTimeout.isS3Path && !envTimeout.s3_download_ok) = false ∧
      envTimeout.harbor_bin_exists = true ∧
      findAttempt dbOneRunning 1 = some { id := 1, run_id := 1, attempt_number := 1,
                                          status := "running" }) ∧
    (execute_harbor envTimeout = failureResult "Harbor execution timed out after 30 minutes" ∧
      ∃ a', findAttempt (execute_harbor_task dbOneRunning 1
              (.normal (execute_harbor envTimeout)) 9).1 1 = some a' ∧
        a'.status = "failed" ∧ a'.reward = some 0 ∧
        a'.error_message = some "Harbor execution timed out after 30 minutes" ∧
        a'.completed_at = some 9) :=
  ⟨⟨rfl, rfl, rfl, rfl⟩,
    timeout_attempt_failed envTimeout dbOneRunning 1 _ 9 rfl rfl rfl rfl⟩

theorem runningAttempts_eq_of_attempts (db db' : DB) (rid : Nat)
    (h : db.attempts = db'.attempts) :
    runningAttempts db rid = runningAttempts db' rid := by
  unfold runningAttempts
  rw [h]

theorem update_run_status_pair (rid : Nat) (mid : DB) :
    ((runningAttempts (update_run_status_if_complete rid mid) rid).length = 0 →
      ∀ run ∈ (update_run_status_if_complete rid mid).runs, run.id = rid →
        run.status = "completed") ∧
    ((runningAttempts (update_run_status_if_complete rid mid) rid).length ≠ 0 →
      (update_run_status_if_complete rid mid).runs = mid.runs) := by
  have hrun : runningAttempts (update_run_status_if_complete rid mid) rid
      = runningAttempts mid rid :=
    runningAttempts_eq_of_attempts _ _ _ (update_run_status_attempts rid mid)
  constructor
  · intro h0
    exact update_run_status_completed rid mid (hrun ▸ h0)
  · intro hne
    exact update_run_status_not_complete rid mid (fun hh => hne (by rw [hrun, hh]))

/-! ## Claim C1 -/

/-- C1 counterexample: an attempt finalized through the unexpected-fault
handler ends `failed` (terminal) with `completed_at` set but its reward
still NULL — the handler never writes the reward column. -/
theorem terminal_attempt_null_reward_counterexample :
    (findAttempt (execute_harbor_task dbOneRunning 1 (TaskOutcome.fault "boom") 5).1 1).map
        (fun a => (a.status, a.reward, a.completed_at))
      = some ("failed", (Option.none : Option Rat), some 5) := rfl

/-- C1 (amended): attempts finalized through the success or
handled-failure paths carry `completed_at` and a non-null reward (the
parsed reward on success, `0.0` on failure); the unexpected-fault handler
stamps `completed_at` and `failed` but leaves the reward unchanged
(NULL when it was never written).  The local executor performs the same
transition as the Celery task. -/
theorem attempt_finalization_fields (db : DB) (aid : Nat) (r : HarborResult) (m : String)
    (t : Nat) (att : AttemptRec) (hatt : findAttempt db aid = some att) :
    (∃ a', findAttempt (execute_harbor_task db aid (.normal r) t).1 aid = some a' ∧
       a'.status = (if r.success then "completed" else "failed") ∧
       a'.completed_at = some t ∧
       a'.reward = some (if r.success then r.reward else 0)) ∧
    (∃ a', findAttempt (execute_harbor_task db aid (.fault m) t).1 aid = some a' ∧
       a'.status = "failed" ∧ a'.completed_at = some t ∧ a'.reward = att.reward) ∧
    execute_attempt_locally db aid (.normal r) t = (execute_harbor_task db aid (.normal r) t).1 ∧
    execute_attempt_locally db aid (.fault m) t = (execute_harbor_task db aid (.fault m) t).1 := by
  refine ⟨?_, ?_, execute_attempt_locally_eq db aid att t _ hatt,
    execute_attempt_locally_eq db aid att t _ hatt⟩
  · rw [execute_harbor_task_normal db aid att t r hatt]
    by_cases h : r.success
    · rw [if_pos h, findAttempt_finalizeSuccess, hatt]
      exact ⟨_, rfl, by simp [h], rfl, by simp [h]⟩
    · rw [if_neg h, findAttempt_finalizeFailure, hatt]
      exact ⟨_, rfl, by simp [h], rfl, by simp [h]⟩
  · rw [execute_harbor_task_fault db aid att t m hatt, findAttempt_finalizeFault, hatt]
    exact ⟨_, rfl, rfl, rfl, rfl⟩

/-- Witness for C1 (amended) at a concrete handled failure. -/
theorem attempt_finalization_fields_witness :
    findAttempt dbOneRunning 1
        = some { id := 1, run_id := 1, attempt_number := 1, status := "running" } ∧
    (∃ a', findAttempt
        (execute_harbor_task dbOneRunning 1 (.normal (failureResult "x")) 5).1 1 = some a' ∧
       a'.status = (if (failureResult "x").success then "completed" else "failed") ∧
       a'.completed_at = some 5 ∧
       a'.reward = some (if (failureResult "x").success then (failureResult "x").reward else 0)) :=
  ⟨rfl, (attempt_finalization_fields dbOneRunning 1 (failureResult "x") "boom" 5 _ rfl).1⟩

/-! ## Claim C2 -/

/-- C2 counterexample: after the unexpected-fault handler finalizes the
only attempt of a run, zero attempts remain `running`, yet the run's
status is still `running` — the handler skips the run-status
recomputation. -/
theorem run_status_not_recomputed_counterexample :
    (runningAttempts (execute_harbor_task dbOneRunning2 4 (TaskOutcome.fault "crash") 5).1 7).length
        = 0 ∧
    ((execute_harbor_task dbOneRunning2 4 (TaskOutcome.fault "crash") 5).1.runs.map
        (fun r => r.status)) = ["running"] :=
  ⟨rfl, rfl⟩

/-- C2 (amended): after a finalization through the success or
handled-failure path, the parent run's derived status is recomputed — it
becomes `completed` when zero of its attempts remain `running`, and the
run rows are untouched otherwise; the unexpected-fault handler leaves
every run row unchanged. -/
theorem run_status_recomputation (db : DB) (aid : Nat) (r : HarborResult) (m : String)
    (t : Nat) (att : AttemptRec) (hatt : findAttempt db aid = some att) :
    ((runningAttempts (execute_harbor_task db aid (.normal r) t).1 att.run_id).length = 0 →
      ∀ run ∈ (execute_harbor_task db aid (.normal r) t).1.runs, run.id = att.run_id →
        run.status = "completed") ∧
    ((runningAttempts (execute_harbor_task db aid (.normal r) t).1 att.run_id).length ≠ 0 →
      (execute_harbor_task db aid (.normal r) t).1.runs = db.runs) ∧
    (execute_harbor_task db aid (.fault m) t).1.runs = db.runs := by
  rw [execute_harbor_task_normal db aid att t r hatt,
    execute_harbor_task_fault db aid att t m hatt]
  refine ⟨?_, ?_, finalizeFault_runs db aid m t⟩
  · by_cases h : r.success
    · rw [if_pos h]
      unfold finalizeSuccess
      exact (update_run_status_pair att.run_id _).1
    · rw [if_neg h]
      unfold finalizeFailure
      exact (update_run_status_pair att.run_id _).1
  · by_cases h : r.success
    · rw [if_pos h]
      unfold finalizeSuccess
      exact (update_run_status_pair att.run_id _).2
    · rw [if_neg h]
      unfold finalizeFailure
      exact (update_run_status_pair att.run_id _).2

/-- Witness for C2 (amended): a handled failure of the only attempt of a
run completes the run. -/
theorem run_status_recomputation_witness :
    findAttempt dbOneRunning2 4
        = some { id := 4, run_id := 7, attempt_number := 1, status := "running" } ∧
    ((runningAttempts
        (execute_harbor_task dbOneRunning2 4 (.normal (failureResult "x")) 5).1 7).length = 0 →
      ∀ run ∈ (execute_harbor_task dbOneRunning2 4 (.normal (failureResult "x")) 5).1.runs,
        run.id = 7 → run.status = "completed") :=
  ⟨rfl, (run_status_recomputation dbOneRunning2 4 (failureResult "x") "boom" 5 _ rfl).1⟩

/-! ## Claim C9 -/

/-- C9: creating a run with `n_attempts = n` (on either dispatch path)
persists exactly `n` new attempt rows, numbered `1..n`, all in `running`
status, before the call returns and before any subprocess has completed
(the returned state has no new episodes or results; dispatches are still
pending messages).  Both dispatch paths persist the same rows. -/
theorem create_run_attempts (db : DB) (fp key : String) (task_id : Nat) (model : String)
    (n rid aid0 : Nat) (root : String) (uc : Bool) (db' : DB) (msgs : List DispatchMsg)
    (hfresh : ∀ a ∈ db.attempts, a.run_id ≠ rid)
    (hcall : create_run db (some fp) (some key) task_id model n rid aid0 root uc
        = some (db', msgs)) :
    ((db'.attempts.filter (fun a => a.run_id == rid)).map (fun a => a.attempt_number))
        = (List.range n).map (fun i => i + 1) ∧
    (∀ a ∈ db'.attempts, a.run_id = rid → a.status = "running") ∧
    db'.attempts.length = db.attempts.length + n ∧
    msgs.length = n ∧
    db'.episodes = db.episodes ∧ db'.test_results = db.test_results ∧
    (create_run db (some fp) (some key) task_id model n rid aid0 root true).map Prod.fst
      = (create_run db (some fp) (some key) task_id model n rid aid0 root false).map Prod.fst := by
  unfold create_run at hcall
  simp only [Option.some.injEq, Prod.mk.injEq] at hcall
  obtain ⟨hdb, hmsgs⟩ := hcall
  subst hdb
  subst hmsgs
  refine ⟨?_, ?_, ?_, ?_, rfl, rfl, rfl⟩
  · rw [show ∀ dbx : DB, dbx.attempts = dbx.attempts from fun _ => rfl]
    rw [List.filter_append]
    rw [List.filter_eq_nil_iff.mpr (fun a ha => by simpa using hfresh a ha)]
    rw [List.filter_eq_self.mpr ?hall]
    case hall =>
      intro a ha
      obtain ⟨i, _, rfl⟩ := List.mem_map.mp ha
      simp
    rw [List.nil_append, List.map_map]
    rfl
  · intro a ha _
    rcases List.mem_append.mp ha with hl | hr
    · exact absurd (by assumption) (hfresh a hl)
    · obtain ⟨i, _, rfl⟩ := List.mem_map.mp hr
      rfl
  · rw [List.length_append, List.length_map, List.length_range]
  · rw [List.length_map, List.length_range]

/-- Witness for C9: three attempts on an empty database. -/
theorem create_run_attempts_witness :
    (∀ a ∈ (DB.mk [] [] [] []).attempts, a.run_id ≠ 1) ∧
    ∃ db' msgs,
      create_run (DB.mk [] [] [] []) (some "/data/t") (some "k") 1 "m" 3 1 1 "/out" true
          = some (db', msgs) ∧
      ((db'.attempts.filter (fun a => a.run_id == 1)).map (fun a => a.attempt_number))
          = (List.range 3).map (fun i => i + 1) ∧
      (∀ a ∈ db'.attempts, a.run_id = 1 → a.status = "running") := by
  refine ⟨fun a ha => absurd ha (List.not_mem_nil a), _, _, rfl, ?_⟩
  have h := create_run_attempts (DB.mk [] [] [] []) "/data/t" "k" 1 "m" 3 1 1 "/out" true _ _
    (fun a ha => absurd ha (List.not_mem_nil a)) rfl
  exact ⟨h.1, h.2.1⟩

theorem parseTests_mem (ts : List PyVal) (l : List TestDict)
    (h : parseTests ts = .ok l) : ∀ x ∈ l, ∃ t ∈ ts, parseOneTest t = .ok x := by
  induction ts generalizing l with
  | nil =>
    unfold parseTests at h
    cases h
    intro x hx
    exact absurd hx (List.not_mem_nil x)
  | cons t rest ih =>
    unfold parseTests at h
    cases h1 : parseOneTest t with
    | error e => rw [h1] at h; simp [Bind.bind, Except.bind] at h
    | ok d =>
      rw [h1] at h
      cases h2 : parseTests rest with
      | error e => rw [h2] at h; simp [Bind.bind, Except.bind] at h
      | ok ds =>
        rw [h2] at h
        simp [Bind.bind, Except.bind] at h
        subst h
        intro x hx
        rcases List.mem_cons.mp hx with rfl | hx'
        · exact ⟨t, List.mem_cons_self t rest, h1⟩
        · obtain ⟨t', ht', hpt⟩ := ih ds h2 x hx'
          exact ⟨t', List.mem_cons_of_mem t ht', hpt⟩

theorem parseOneTest_message (t : PyVal) (td : TestDict) (h : parseOneTest t = .ok td)
    (hm : td.error_message ≠ PyVal.none) : td.status = PyVal.str "failed" := by
  cases t with
  | dict kvs =>
    by_cases hs : ((kvLookup kvs "status").getD PyVal.none).isStrVal "failed" = true
    · simp [parseOneTest, pyGetD, pyGet, hs, Bind.bind, Except.bind, Pure.pure, Except.pure] at h
      cases hk : kvLookup kvs "status" with
      | none => rw [hk] at hs; simp [PyVal.isStrVal] at hs
      | some v =>
        rw [hk] at hs
        cases v <;> simp [PyVal.isStrVal] at hs
        subst h
        simp [hk, hs]
    · simp [parseOneTest, pyGetD, pyGet, hs, Bind.bind, Except.bind, Pure.pure, Except.pure] at h
      subst h
      simp at hm
  | none => simp [parseOneTest, pyGetD, pyGet, Bind.bind, Except.bind] at h
  | bool b => simp [parseOneTest, pyGetD, pyGet, Bind.bind, Except.bind] at h
  | int n => simp [parseOneTest, pyGetD, pyGet, Bind.bind, Except.bind] at h
  | float q => simp [parseOneTest, pyGetD, pyGet, Bind.bind, Except.bind] at h
  | str s => simp [parseOneTest, pyGetD, pyGet, Bind.bind, Except.bind] at h
  | list xs => simp [parseOneTest, pyGetD, pyGet, Bind.bind, Except.bind] at h

/-! ## Claim C5 -/

/-- C5: for all parsed test results, `error_message` is non-null only if
the parsed status is exactly `failed`; a test whose status is anything
else carries a null message even when the source ctrf.json entry has a
`message` value. -/
theorem test_message_only_when_failed (trial : FsEntry) (td : TestDict)
    (hmem : td ∈ parse_test_results trial) (hm : td.error_message ≠ PyVal.none) :
    td.status = PyVal.str "failed" := by
  unfold parse_test_results at hmem
  split at hmem
  · exact absurd hmem (List.not_mem_nil td)
  · exact absurd hmem (List.not_mem_nil td)
  · split at hmem
    · exact absurd hmem (List.not_mem_nil td)
    · split at hmem
      · exact absurd hmem (List.not_mem_nil td)
      · split at hmem
        · exact absurd hmem (List.not_mem_nil td)
        · split at hmem
          · split at hmem
            · rename_i ts l hpt
              obtain ⟨t, _, hone⟩ := parseTests_mem _ _ hpt td hmem
              exact parseOneTest_message t td hone hm
            · exact absurd hmem (List.not_mem_nil td)
          · exact absurd hmem (List.not_mem_nil td)
          · exact absurd hmem (List.not_mem_nil td)

/-- Witness for C5: the failed test of `trialC5` carries its message, and
its status is `failed`. -/
theorem test_message_only_when_failed_witness :
    (tdC5 ∈ parse_test_results trialC5 ∧ tdC5.error_message ≠ PyVal.none) ∧
    tdC5.status = PyVal.str "failed" := by
  have hmem : tdC5 ∈ parse_test_results trialC5 := by
    rw [show parse_test_results trialC5 = [tdC5] from rfl]
    exact List.mem_singleton.mpr rfl
  have hne : tdC5.error_message ≠ PyVal.none := fun h => PyVal.noConfusion h
  exact ⟨⟨hmem, hne⟩, test_message_only_when_failed trialC5 tdC5 hmem hne⟩

/-! ## Claim C4 -/

/-- C4 counterexample: a ctrf.json test entry whose `status` is `errored`
is parsed with status `errored` — outside the four-value enumeration; a
present out-of-enumeration status is passed through verbatim, not mapped
to `unknown`. -/
theorem test_status_passthrough_counterexample :
    (parse_test_results trialC4).map (fun td => statusInEnum td.status) = [false] ∧
    (parse_test_results trialC4).map (fun td => td.status) = [PyVal.str "errored"] :=
  ⟨rfl, rfl⟩

/-- C4 (amended): every parsed test result comes from the per-entry
mapping; that mapping yields status `unknown` when the source entry has
no `status` key, and passes a present `status` value through verbatim
(whatever it is), rather than restricting it to the four enumerated
values. -/
theorem test_status_passthrough :
    (∀ trial td, td ∈ parse_test_results trial → ∃ t, parseOneTest t = Except.ok td) ∧
    (∀ kvs, kvLookup kvs "status" = Option.none →
      ∃ td, parseOneTest (PyVal.dict kvs) = .ok td ∧ td.status = PyVal.str "unknown") ∧
    (∀ kvs v, kvLookup kvs "status" = some v →
      ∃ td, parseOneTest (PyVal.dict kvs) = .ok td ∧ td.status = v) := by
  refine ⟨?_, ?_, ?_⟩
  · intro trial td hmem
    unfold parse_test_results at hmem
    split at hmem
    · exact absurd hmem (List.not_mem_nil td)
    · exact absurd hmem (List.not_mem_nil td)
    · split at hmem
      · exact absurd hmem (List.not_mem_nil td)
      · split at hmem
        · exact absurd hmem (List.not_mem_nil td)
        · split at hmem
          · exact absurd hmem (List.not_mem_nil td)
          · split at hmem
            · split at hmem
              · rename_i ts l hpt
                obtain ⟨t, _, hone⟩ := parseTests_mem _ _ hpt td hmem
                exact ⟨t, hone⟩
              · exact absurd hmem (List.not_mem_nil td)
            · exact absurd hmem (List.not_mem_nil td)
            · exact absurd hmem (List.not_mem_nil td)
  · intro kvs hk
    refine ⟨{ test_name := (kvLookup kvs "name").getD (.str ""),
              status := PyVal.str "unknown",
              duration_ms := (kvLookup kvs "duration").getD (.int 0),
              error_message := PyVal.none }, ?_, rfl⟩
    simp [parseOneTest, pyGetD, pyGet, hk, Bind.bind, Except.bind, Pure.pure, Except.pure,
      PyVal.isStrVal]
  · intro kvs v hk
    by_cases hs : v.isStrVal "failed" = true
    · refine ⟨{ test_name := (kvLookup kvs "name").getD (.str ""),
                status := v,
                duration_ms := (kvLookup kvs "duration").getD (.int 0),
                error_message := (kvLookup kvs "message").getD (.str "") }, ?_, rfl⟩
      simp [parseOneTest, pyGetD, pyGet, hk, hs, Bind.bind, Except.bind, Pure.pure, Except.pure]
    · refine ⟨{ test_name := (kvLookup kvs "name").getD (.str ""),
                status := v,
                duration_ms := (kvLookup kvs "duration").getD (.int 0),
                error_message := PyVal.none }, ?_, rfl⟩
      simp [parseOneTest, pyGetD, pyGet, hk, hs, Bind.bind, Except.bind, Pure.pure, Except.pure]

/-- Witness for C4 (amended): a present `errored` status passes through. -/
theorem test_status_passthrough_witness :
    kvLookup [("status", PyVal.str "errored")] "status" = some (PyVal.str "errored") ∧
    ∃ td, parseOneTest (PyVal.dict [("status", PyVal.str "errored")]) = .ok td ∧
      td.status = PyVal.str "errored" :=
  ⟨rfl, test_status_passthrough.2.2 [("status", PyVal.str "errored")] (PyVal.str "errored") rfl⟩

theorem parseOneEpisode_ok (nm : String) (sub : FsEntry)
    (h : (epNum? nm).isSome) : ∃ o, parseOneEpisode nm sub = .ok o := by
  unfold parseOneEpisode
  split
  · rename_i heq
    rw [heq] at h
    simp at h
  · split
    · exact ⟨_, rfl⟩
    · exact ⟨_, rfl⟩
    · split
      · exact ⟨_, rfl⟩
      · exact ⟨_, rfl⟩
      · exact ⟨_, rfl⟩

theorem parseEpisodesFrom_ok (L : List (String × FsEntry))
    (h : ∀ e ∈ L, (epNum? e.1).isSome) : ∃ l, parseEpisodesFrom L = .ok l := by
  induction L with
  | nil => exact ⟨[], rfl⟩
  | cons e L ih =>
    obtain ⟨o, ho⟩ := parseOneEpisode_ok e.1 e.2 (h e (List.mem_cons_self e L))
    obtain ⟨l, hl⟩ := ih (fun x hx => h x (List.mem_cons_of_mem e hx))
    unfold parseEpisodesFrom
    rw [ho]
    cases o with
    | none => exact ⟨l, by simp [Bind.bind, Except.bind, hl]⟩
    | some ep => exact ⟨ep :: l, by simp [Bind.bind, Except.bind, hl]⟩

theorem parseEpisodesFrom_skip (L1 L2 : List (String × FsEntry)) (nm : String) (sub : FsEntry)
    (h : parseOneEpisode nm sub = .ok Option.none) :
    parseEpisodesFrom (L1 ++ (nm, sub) :: L2) = parseEpisodesFrom (L1 ++ L2) := by
  induction L1 with
  | nil =>
    rw [List.nil_append, List.nil_append]
    conv_lhs => rw [parseEpisodesFrom]
    simp only [h]
    cases h2 : parseEpisodesFrom L2 <;> simp [Bind.bind, Except.bind, h2]
  | cons e L1 ih =>
    rw [List.cons_append, List.cons_append]
    conv_lhs => rw [parseEpisodesFrom]
    conv_rhs => rw [parseEpisodesFrom]
    rw [ih]

theorem parseOneEpisode_skip_badjson (nm : String) (sub : FsEntry) (c : String)
    (hn : (epNum? nm).isSome) (hr : entryNamed sub "response.txt" = some (.file c))
    (hj : json_loads c = Option.none) : parseOneEpisode nm sub = .ok Option.none := by
  obtain ⟨n, hn'⟩ := Option.isSome_iff_exists.mp hn
  simp [parseOneEpisode, hn', hr, hj]

/-! ## Claim C3 -/

/-- C3 counterexample: a directory named `episode-x` under `agent/` is
considered (it merely starts with `episode-`), and the integer conversion
of its suffix — evaluated outside the protected block — raises an
uncaught ValueError that aborts the whole extraction, including the
well-formed sibling `episode-1`. -/
theorem episode_extraction_fatal_counterexample :
    parse_episodes trialC3
      = Except.error (PyErr.valueError "invalid literal for int with base 10: episode-x") := rfl

/-- C3 (amended): episode extraction iterates the directory entries of
`agent/` that start with `episode-`; when every such entry has an integer
suffix the extraction never faults, a single episode whose `response.txt`
is missing or fails to parse as JSON is skipped without affecting the
remaining episodes, and entries not matching the
directory-plus-`episode-` filter are ignored entirely.  (An entry whose
suffix is not an integer raises a fatal ValueError — see the
counterexample.) -/
theorem episode_extraction_locality :
    (∀ trial agentEntries, entryNamed trial "agent" = some (.dir agentEntries) →
      (∀ e ∈ epiEntries agentEntries, (epNum? e.1).isSome) →
      ∃ l, parse_episodes trial = .ok l) ∧
    (∀ L1 L2 nm sub, parseOneEpisode nm sub = .ok Option.none →
      parseEpisodesFrom (L1 ++ (nm, sub) :: L2) = parseEpisodesFrom (L1 ++ L2)) ∧
    (∀ nm sub c, (epNum? nm).isSome → entryNamed sub "response.txt" = some (.file c) →
      json_loads c = Option.none → parseOneEpisode nm sub = .ok Option.none) ∧
    (∀ agentEntries bad, (bad.2.isDir && pyStartsWith bad.1 "episode-") = false →
      episodeDirs (agentEntries ++ [bad]) = episodeDirs agentEntries) := by
  refine ⟨?_, parseEpisodesFrom_skip, parseOneEpisode_skip_badjson, ?_⟩
  · intro trial agentEntries hagent hall
    unfold parse_episodes
    rw [hagent]
    exact parseEpisodesFrom_ok _ (fun e he =>
      hall e ((List.perm_insertionSort _ _).mem_iff.mp he))
  · intro agentEntries bad h
    unfold episodeDirs epiEntries
    rw [List.filter_append]
    simp [h]

/-- Witness for C3 (amended): on `trialC3w` every episode entry has an
integer suffix, so extraction succeeds even though `episode-2` holds
invalid JSON. -/
theorem episode_extraction_locality_witness :
    (∀ e ∈ epiEntries agentC3w, (epNum? e.1).isSome) ∧
    ∃ l, parse_episodes trialC3w = .ok l := by
  have hgood : ∀ e ∈ epiEntries agentC3w, (epNum? e.1).isSome := by
    intro e he
    rw [show epiEntries agentC3w = agentC3w from rfl] at he
    rcases List.mem_cons.mp he with rfl | he2
    · rfl
    rcases List.mem_cons.mp he2 with rfl | he3
    · rfl
    exact absurd he3 (List.not_mem_nil e)
  exact ⟨hgood, episode_extraction_locality.1 trialC3w agentC3w rfl hgood⟩

theorem findTrialIn_spec (dn : String) (ts : List (String × FsEntry)) :
    (ts.filterMap (fun te => if te.2.isDir then some (dn, te.1, te.2) else Option.none)).find?
        (fun c => (entryNamed c.2.2 "agent").isSome)
      = (findTrialIn ts).map (fun p => (dn, p.1, p.2)) := by
  induction ts with
  | nil => rfl
  | cons te rest ih =>
    unfold findTrialIn
    by_cases hd : te.2.isDir
    · cases ha : entryNamed te.2 "agent" with
      | none => simp [hd, ha, ih]
      | some x => simp [hd, ha]
    · simp [hd, ih]

theorem findTrialOuter_eq (es : List (String × FsEntry)) :
    findTrialOuter es
      = (trialCandidates es).find? (fun c => (entryNamed c.2.2 "agent").isSome) := by
  induction es with
  | nil => rfl
  | cons de rest ih =>
    unfold findTrialOuter
    cases de with
    | mk dn d =>
      cases d with
      | file c =>
        rw [show trialCandidates ((dn, FsEntry.file c) :: rest) = trialCandidates rest from by
          unfold trialCandidates
          rw [List.flatMap_cons]
          rfl]
        exact ih
      | dir ts =>
        rw [show trialCandidates ((dn, FsEntry.dir ts) :: rest)
            = (ts.filterMap (fun te =>
                if te.2.isDir then some (dn, te.1, te.2) else Option.none))
              ++ trialCandidates rest from by
          unfold trialCandidates
          rw [List.flatMap_cons]]
        rw [List.find?_append, findTrialIn_spec dn ts]
        cases hin : findTrialIn ts with
        | none => simp [hin, ih]
        | some p => simp [hin]

theorem find_trial_directory_eq (es : List (String × FsEntry)) :
    find_trial_directory (some (.dir es)) = .ok (firstTrialWithAgentEntry es) := by
  show Except.ok (findTrialOuter es) = _
  unfold firstTrialWithAgentEntry
  rw [findTrialOuter_eq]

/-! ## Claim C7 -/

/-- C7 counterexample: trial-directory discovery checks only that the
path `agent` exists (`agent_dir.exists()`), not that it is a directory:
with a first trial whose `agent` is a regular file and a second whose
`agent` is a directory, the code selects the first, while the first
trial containing an `agent` subdirectory is the second. -/
theorem trial_discovery_counterexample :
    find_trial_directory (some outC7)
        = Except.ok (some ("2025-01-01__00-00-00", "trial1",
            FsEntry.dir [("agent", FsEntry.file "oops")])) ∧
    firstTrialWithAgentSubdir outC7entries
        = some ("2025-01-01__00-00-00", "trial2", FsEntry.dir [("agent", FsEntry.dir [])]) ∧
    ("trial1" : String) ≠ "trial2" :=
  ⟨rfl, rfl, by decide⟩

/-- C7 (amended): discovery selects the first trial directory (in
directory-listing order) that contains an entry named `agent` of any
kind (file or directory); a missing output directory or the absence of
any such trial yields `None` rather than a fault, and that absence makes
`execute_harbor` return a failure dict, which the executor records as a
failed attempt. -/
theorem trial_discovery_absence :
    (find_trial_directory Option.none = Except.ok Option.none) ∧
    (∀ es, find_trial_directory (some (FsEntry.dir es))
        = .ok (firstTrialWithAgentEntry es)) ∧
    (∀ env rc out err, env.subprocess = SubprocOutcome.completed rc out err → rc = 0 →
      (env.isS3Path && !env.s3_download_ok) = false → env.harbor_bin_exists = true →
      find_trial_directory env.output_fs = .ok Option.none →
      execute_harbor env = failureResult "Could not find trial directory in output") ∧
    (∀ db aid att t msg, findAttempt db aid = some att →
      ∃ a', findAttempt
          (execute_harbor_task db aid (.normal (failureResult msg)) t).1 aid = some a' ∧
        a'.status = "failed") := by
  refine ⟨rfl, find_trial_directory_eq, ?_, ?_⟩
  · intro env rc out err hsp hrc hs3 hbin hfind
    unfold execute_harbor
    simp [hs3, hbin, hsp, hrc, hfind]
  · intro db aid att t msg hatt
    rw [execute_harbor_task_normal db aid att t _ hatt, if_neg (by simp [failureResult]),
      findAttempt_finalizeFailure, hatt]
    exact ⟨_, rfl, rfl⟩

/-- Witness for C7 (amended): an empty output tree yields `None`, and a
successful subprocess with that tree produces the not-found failure
dict. -/
theorem trial_discovery_absence_witness :
    find_trial_directory (some (FsEntry.dir ([] : List (String × FsEntry))))
        = Except.ok Option.none ∧
    execute_harbor
        { envTimeout with subprocess := .completed 0 "" "", output_fs := some (.dir []) }
      = failureResult "Could not find trial directory in output" :=
  ⟨rfl, trial_discovery_absence.2.2.1
    { envTimeout with subprocess := .completed 0 "" "", output_fs := some (.dir []) }
    0 "" "" rfl rfl rfl rfl rfl⟩

theorem parseOneEpisode_good (e : String × FsEntry) (hg : GoodEpisode e) :
    ∃ ep, parseOneEpisode e.1 e.2 = .ok (some ep) ∧
      epNum? e.1 = some ep.episode_number := by
  obtain ⟨n, c, kvs, hn, hr, hj⟩ := hg
  refine ⟨{ episode_number := n,
            analysis := (kvLookup kvs "analysis").getD (.str ""),
            plan := (kvLookup kvs "plan").getD (.str ""),
            commands := pyDumps ((kvLookup kvs "commands").getD (.list [])),
            task_complete := (kvLookup kvs "task_complete").getD (.bool false) }, ?_, hn⟩
  simp [parseOneEpisode, hn, hr, hj]

theorem parseEpisodesFrom_good (L : List (String × FsEntry))
    (h : ∀ e ∈ L, GoodEpisode e) :
    ∃ l, parseEpisodesFrom L = .ok l ∧
      l.map (fun ep => ep.episode_number) = L.map (fun e => (epNum? e.1).getD 0) := by
  induction L with
  | nil => exact ⟨[], rfl, rfl⟩
  | cons e L ih =>
    obtain ⟨ep, hep, hnum⟩ := parseOneEpisode_good e (h e (List.mem_cons_self e L))
    obtain ⟨l, hl, hm⟩ := ih (fun x hx => h x (List.mem_cons_of_mem e hx))
    refine ⟨ep :: l, ?_, ?_⟩
    · conv_lhs => rw [parseEpisodesFrom]
      simp [hep, hl, Bind.bind, Except.bind]
    · simp [hm, hnum]

theorem parseOneTest_dict_ok (kvs : List (String × PyVal)) :
    ∃ td, parseOneTest (PyVal.dict kvs) = .ok td := by
  by_cases hs : ((kvLookup kvs "status").getD PyVal.none).isStrVal "failed" = true
  · refine ⟨{ test_name := (kvLookup kvs "name").getD (.str ""),
              status := (kvLookup kvs "status").getD (.str "unknown"),
              duration_ms := (kvLookup kvs "duration").getD (.int 0),
              error_message := (kvLookup kvs "message").getD (.str "") }, ?_⟩
    simp [parseOneTest, pyGetD, pyGet, hs, Bind.bind, Except.bind, Pure.pure, Except.pure]
  · refine ⟨{ test_name := (kvLookup kvs "name").getD (.str ""),
              status := (kvLookup kvs "status").getD (.str "unknown"),
              duration_ms := (kvLookup kvs "duration").getD (.int 0),
              error_message := PyVal.none }, ?_⟩
    simp [parseOneTest, pyGetD, pyGet, hs, Bind.bind, Except.bind, Pure.pure, Except.pure]

theorem parseTests_all_dicts (ts : List PyVal)
    (h : ∀ t ∈ ts, ∃ kvs, t = PyVal.dict kvs) :
    ∃ l, parseTests ts = .ok l ∧ l.length = ts.length := by
  induction ts with
  | nil => exact ⟨[], rfl, rfl⟩
  | cons t ts ih =>
    obtain ⟨kvs, rfl⟩ := h t (List.mem_cons_self t ts)
    obtain ⟨td, htd⟩ := parseOneTest_dict_ok kvs
    obtain ⟨l, hl, hlen⟩ := ih (fun x hx => h x (List.mem_cons_of_mem _ hx))
    refine ⟨td :: l, ?_, by simp [hlen]⟩
    conv_lhs => rw [parseTests]
    simp [htd, hl, Bind.bind, Except.bind]

/-! ## Claim C6 -/

/-- C6: for a trial tree whose `agent/` episode entries are all
well-formed (`episode-<integer>` directories with valid-JSON-object
`response.txt`) and whose ctrf.json holds `results.tests` with M
entries, parsing yields exactly N episodes whose numbers are the
directory-name suffixes and exactly M test results; the reward is the
trimmed float content of `verifier/reward.txt`, with absence or
non-numeric content yielding `0.0` and never a fault. -/
theorem parser_round_trip (trial : FsEntry) (agentEntries : List (String × FsEntry))
    (cc : String) (rkv tkv : List (String × PyVal)) (ts : List PyVal)
    (hagent : entryNamed trial "agent" = some (.dir agentEntries))
    (hgood : ∀ e ∈ epiEntries agentEntries, GoodEpisode e)
    (hctrf : pathLookup trial ["verifier", "ctrf.json"] = some (.file cc))
    (hjson : json_loads cc = some (.dict rkv))
    (hres : kvLookup rkv "results" = some (.dict tkv))
    (htests : kvLookup tkv "tests" = some (.list ts))
    (hdicts : ∀ t ∈ ts, ∃ kvs, t = PyVal.dict kvs) :
    (∃ l, parse_episodes trial = .ok l ∧
      l.length = (epiEntries agentEntries).length ∧
      (l.map (fun ep => ep.episode_number)).Perm
        ((epiEntries agentEntries).map (fun e => (epNum? e.1).getD 0))) ∧
    (parse_test_results trial).length = ts.length ∧
    (∀ c q, pathLookup trial ["verifier", "reward.txt"] = some (.file c) →
      pyFloat? (pyStrip c) = some q → parse_reward trial = q) ∧
    (∀ c, pathLookup trial ["verifier", "reward.txt"] = some (.file c) →
      pyFloat? (pyStrip c) = Option.none → parse_reward trial = 0) ∧
    (pathLookup trial ["verifier", "reward.txt"] = Option.none → parse_reward trial = 0) := by
  have hperm := List.perm_insertionSort
    (fun a b : String × FsEntry => strLtb b.1 a.1 = false) (epiEntries agentEntries)
  refine ⟨?_, ?_, ?_, ?_, ?_⟩
  · obtain ⟨l, hl, hmap⟩ := parseEpisodesFrom_good (episodeDirs agentEntries)
      (fun e he => hgood e (hperm.mem_iff.mp he))
    have hpe : parse_episodes trial = parseEpisodesFrom (episodeDirs agentEntries) := by
      unfold parse_episodes
      rw [hagent]
    refine ⟨l, by rw [hpe, hl], ?_, ?_⟩
    · have hlen := congrArg List.length hmap
      simp only [List.length_map] at hlen
      rw [hlen]
      exact List.length_insertionSort _ _
    · rw [hmap]
      exact List.Perm.map _ hperm
  · obtain ⟨l, hl, hlen⟩ := parseTests_all_dicts ts hdicts
    simp [parse_test_results, hctrf, hjson, pyGetD, hres, htests, hl, hlen]
  · intro c q hc hq
    simp [parse_reward, hc, hq]
  · intro c hc hq
    simp [parse_reward, hc, hq]
  · intro hc
    simp [parse_reward, hc]

/-- Witness for C6 at `trialC6` (two well-formed episodes, a two-entry
ctrf.json, reward file containing `1`). -/
theorem parser_round_trip_witness :
    (∀ e ∈ epiEntries agentC6, GoodEpisode e) ∧
    (∃ l, parse_episodes trialC6 = .ok l ∧ l.length = (epiEntries agentC6).length) ∧
    (parse_test_results trialC6).length = 2 ∧
    parse_reward trialC6 = 1 := by
  have hgood : ∀ e ∈ epiEntries agentC6, GoodEpisode e := by
    intro e he
    rw [show epiEntries agentC6
        = [("episode-1", FsEntry.dir
              [("response.txt", FsEntry.file "\x7b\"analysis\": \"a1\"\x7d")]),
           ("episode-2", FsEntry.dir
              [("response.txt", FsEntry.file "\x7b\"plan\": \"p2\"\x7d")])] from rfl] at he
    rcases List.mem_cons.mp he with rfl | he2
    · exact ⟨1, "\x7b\"analysis\": \"a1\"\x7d", [("analysis", PyVal.str "a1")], rfl, rfl, rfl⟩
    rcases List.mem_cons.mp he2 with rfl | he3
    · exact ⟨2, "\x7b\"plan\": \"p2\"\x7d", [("plan", PyVal.str "p2")], rfl, rfl, rfl⟩
    exact absurd he3 (List.not_mem_nil e)
  have hdicts : ∀ t ∈ [PyVal.dict [("name", PyVal.str "t1"), ("status", PyVal.str "passed")],
                       PyVal.dict [("name", PyVal.str "t2"), ("status", PyVal.str "failed")]],
      ∃ kvs, t = PyVal.dict kvs := by
    intro t ht
    rcases List.mem_cons.mp ht with rfl | ht2
    · exact ⟨_, rfl⟩
    rcases List.mem_cons.mp ht2 with rfl | ht3
    · exact ⟨_, rfl⟩
    exact absurd ht3 (List.not_mem_nil t)
  have h := parser_round_trip trialC6 agentC6 ctrfC6 _ _ _ rfl hgood rfl rfl rfl rfl hdicts
  obtain ⟨⟨l, hl, hlen, _⟩, htlen, hrew, _, _⟩ := h
  exact ⟨hgood, ⟨l, hl, hlen⟩, htlen, hrew " 1 \n" 1 rfl rfl⟩
